import Mathlib

/-!
Verification of the parallelization-pattern demo (sectioning + voting).

The source files are `src/Parallelization-pattern/voting.py` and
`src/Parallelization-pattern/sectioning.py`.  Pure pieces of the Python code
are embedded as Lean functions on `String` / `List Char`; the async fan-out
(`asyncio.gather`) is embedded as an index-addressed result buffer filled in
an arbitrary completion order; the HTTP layer is embedded as an environment
value describing the outcome of a `session.post` call.  All definitions are
computable and reduce in the kernel.
-/

namespace Parallelization

/-! ## ASCII fragment of the Python string primitives used by the code

The voting code applies `str.strip()`, `str.upper()`, `str.split()` and the
substring operator `in` to model responses.  We embed the ASCII behaviour of
those primitives (the category tokens and the mocked responses in the spec are
all ASCII). -/

/-- The ASCII whitespace characters recognised by Python `str.strip()` and
`str.split()`. -/
def isSpace (c : Char) : Bool :=
  c == ' ' || c == '\t' || c == '\n' || c == '\r' || c == '\x0b' || c == '\x0c'

/-- The ASCII lowercase-to-uppercase table of Python `str.upper()`. -/
def UPPER_MAP : List (Char × Char) :=
  [('a', 'A'), ('b', 'B'), ('c', 'C'), ('d', 'D'), ('e', 'E'), ('f', 'F'),
   ('g', 'G'), ('h', 'H'), ('i', 'I'), ('j', 'J'), ('k', 'K'), ('l', 'L'),
   ('m', 'M'), ('n', 'N'), ('o', 'O'), ('p', 'P'), ('q', 'Q'), ('r', 'R'),
   ('s', 'S'), ('t', 'T'), ('u', 'U'), ('v', 'V'), ('w', 'W'), ('x', 'X'),
   ('y', 'Y'), ('z', 'Z')]

/-- ASCII case mapping of Python `str.upper()`, character by character:
a lowercase letter maps to its uppercase partner, every other character is
unchanged. -/
def upChar (c : Char) : Char :=
  match UPPER_MAP.find? (fun p => p.1 == c) with
  | some p => p.2
  | none => c

/-- Python `s.strip()`: remove leading and trailing whitespace. -/
def pyStrip (l : List Char) : List Char :=
  ((l.dropWhile isSpace).reverse.dropWhile isSpace).reverse

/-- Python `s.upper()` on the ASCII fragment. -/
def pyUpper (l : List Char) : List Char :=
  l.map upChar

/-- `startsWithL needle hay`: `hay` begins with `needle`. -/
def startsWithL : List Char → List Char → Bool
  | [], _ => true
  | _ :: _, [] => false
  | a :: as, b :: bs => a == b && startsWithL as bs

/-- Python substring test `needle in hay`. -/
def containsSub (needle : List Char) : List Char → Bool
  | [] => needle.isEmpty
  | c :: rest => startsWithL needle (c :: rest) || containsSub needle rest

/-- Worker for `pySplit`; `cur` is the (reversed) word currently being read. -/
def pySplitAux : List Char → List Char → List (List Char)
  | [], cur => if cur = [] then [] else [cur.reverse]
  | c :: cs, cur =>
    if isSpace c then
      if cur = [] then pySplitAux cs []
      else cur.reverse :: pySplitAux cs []
    else pySplitAux cs (c :: cur)

/-- Python `s.split()` (no argument): split on whitespace runs, dropping
empty pieces. -/
def pySplit (l : List Char) : List (List Char) :=
  pySplitAux l []

/-! ## The voting classifier (`voting.py`, lines 55-69) -/

/-- The closed category set `["POSITIVE", "NEGATIVE", "NEUTRAL"]` used by the
first-word fallback of the classifier. -/
def LABELS : List String := ["POSITIVE", "NEGATIVE", "NEUTRAL"]

/-- `sa_sentiment = sa_response.strip().upper()` (voting.py line 58). -/
def normResp (sa_response : String) : List Char :=
  pyUpper (pyStrip sa_response.data)

/-- `sa_sentiment.split()[0] if sa_sentiment else ""` (voting.py line 67),
with the indexing read off the head of the split (total version; the
fallible indexing itself is embedded in `classifyE`). -/
def first_word (sa_sentiment : List Char) : List Char :=
  if sa_sentiment = [] then [] else (pySplit sa_sentiment).headD []

/-- The per-response classification of `analyze_sentiment_voting`
(voting.py lines 56-69): `some label` when the loop appends `label` to
`sa_votes` for this response, `none` when the response is dropped.
`normResp sa_response` is the local `sa_sentiment`. -/
def classify (sa_response : String) : Option String :=
  if containsSub "POSITIVE".data (normResp sa_response) then some "POSITIVE"
  else if containsSub "NEGATIVE".data (normResp sa_response) then some "NEGATIVE"
  else if containsSub "NEUTRAL".data (normResp sa_response) then some "NEUTRAL"
  else if LABELS.contains (String.mk (first_word (normResp sa_response))) then
    some (String.mk (first_word (normResp sa_response)))
  else none

/-- Same classification step, but with the list indexing `split()[0]` kept
fallible: `.error` is the `IndexError` Python would raise if the split of a
non-empty string were empty.  Used to state that classification is total. -/
def classifyE (sa_response : String) : Except String (Option String) :=
  if containsSub "POSITIVE".data (normResp sa_response) then .ok (some "POSITIVE")
  else if containsSub "NEGATIVE".data (normResp sa_response) then .ok (some "NEGATIVE")
  else if containsSub "NEUTRAL".data (normResp sa_response) then .ok (some "NEUTRAL")
  else if normResp sa_response = [] then
    .ok (if LABELS.contains (String.mk []) then some (String.mk []) else none)
  else
    match pySplit (normResp sa_response) with
    | [] => .error "IndexError: list index out of range"
    | w :: _ =>
      .ok (if LABELS.contains (String.mk w) then some (String.mk w) else none)

/-! ## Vote tally and winner (`voting.py`, lines 71-80)

Python builds `sa_vote_counts` as a dict updated with
`sa_vote_counts[v] = sa_vote_counts.get(v, 0) + 1`; dict iteration order is
insertion order, so the tally is embedded as an association list in which a
new key is appended at the end and an existing key has its (first) entry
incremented in place. -/

/-- One iteration of the tally loop: `sa_vote_counts[sa_vote] += 1` with
default `0`, preserving insertion order. -/
def bump (counts : List (String × Nat)) (sa_vote : String) : List (String × Nat) :=
  match counts with
  | [] => [(sa_vote, 1)]
  | (k, n) :: rest =>
    if k = sa_vote then (k, n + 1) :: rest else (k, n) :: bump rest sa_vote

/-- `sa_vote_counts` after the whole loop over `sa_votes`. -/
def tally (sa_votes : List String) : List (String × Nat) :=
  sa_votes.foldl bump []

/-- The sum of all counts recorded in a tally. -/
def sumCounts (counts : List (String × Nat)) : Nat :=
  (counts.map Prod.snd).sum

/-- The count a tally records for label `k` (`0` when `k` is absent):
Python `sa_vote_counts.get(k, 0)`. -/
def lookupCount (counts : List (String × Nat)) (k : String) : Nat :=
  match counts.find? (fun p => p.1 == k) with
  | some p => p.2
  | none => 0

/-- Python `max(items, key=lambda x: x[1])` starting from a current best:
a later item replaces the best only when its count is strictly greater, so
the first maximal item in iteration order wins. -/
def pyMaxAux (best : String × Nat) : List (String × Nat) → String × Nat
  | [] => best
  | y :: ys => pyMaxAux (if y.2 > best.2 then y else best) ys

/-- `max(sa_vote_counts.items(), key=lambda x: x[1])[0]` when there are
votes, and the sentinel when there are none.  `tally sa_votes` is empty
exactly when `sa_votes` is empty (`tally_eq_nil_iff` below), so matching on
the tally is the same test as the Python test `if sa_votes:`. -/
def winnerOf (sa_votes : List String) : String :=
  match tally sa_votes with
  | [] => "UNABLE TO DETERMINE"
  | t :: ts => (pyMaxAux t ts).1

/-- The classification loop of `analyze_sentiment_voting`: the `sa_votes`
list built from the gathered responses (voting.py lines 55-69). -/
def votesFrom (responses : List String) : List String :=
  responses.filterMap classify

/-- The pure tail of `analyze_sentiment_voting` (voting.py lines 54-80):
from the gathered responses to the returned `(winner, sa_votes)` pair. -/
def voteResult (responses : List String) : String × List String :=
  (winnerOf (votesFrom responses), votesFrom responses)

/-! ## The fan-out step (`asyncio.gather`)

`asyncio.gather(*tasks)` stores the result of each task in the slot at the position
of that task as the tasks complete (in whatever order the scheduler
settles them) and, once every task is done, returns the slots in input
order.  We embed this with an explicit completion schedule `σ`: a list of
task indices in completion order.  `respond i` is the string the `i`-th
`call_ollama` coroutine returns (a model response or an `"Error: ..."`
string — `call_ollama` never raises, see `call_ollama_spec`). -/

/-- Write `r` into slot `i` of the result buffer. -/
def writeSlot (buf : Nat → Option String) (i : Nat) (r : String) : Nat → Option String :=
  fun j => if j = i then some r else buf j

/-- The result buffer after the tasks listed in `σ` have completed. -/
def runSchedule (respond : Nat → String) : List Nat → Nat → Option String
  | [] => fun _ => none
  | i :: rest => writeSlot (runSchedule respond rest) i (respond i)

/-- The list `asyncio.gather` returns: the `n` slots read in input order
after the schedule `σ` has run (slots of never-completed tasks are `none`;
a full join has `σ` a permutation of `range n`). -/
def gather (respond : Nat → String) (n : Nat) (σ : List Nat) : List (Option String) :=
  (List.range n).map (runSchedule respond σ)

/-- `gather` with the slots unwrapped (`""` for an unfilled slot, which a
complete schedule never produces). -/
def gatherD (respond : Nat → String) (n : Nat) (σ : List Nat) : List String :=
  (gather respond n σ).map (fun o => o.getD "")

/-- Full `analyze_sentiment_voting` (voting.py lines 42-80): fan out the
three sentiment prompts and vote on the gathered responses.  `respond i`
models `call_ollama(session, SENTIMENT_PROMPTS[i].format(text=text))`. -/
def analyze_sentiment_voting (respond : Nat → String) (σ : List Nat) : String × List String :=
  voteResult (gatherD respond 3 σ)

/-- The keys of `SECTION_PROMPTS` in insertion order
(sectioning.py lines 13-35), i.e. the `section_names` list. -/
def SECTION_NAMES : List String :=
  ["headlines", "technical_deep_dive", "industry_news", "tools_resources", "opinion_analysis"]

/-- `generate_newsletter_sections` (sectioning.py lines 55-79): fan out the
five section prompts and zip the section names with the gathered responses
into the `results` dict (an insertion-ordered association list).
`respond i` models `call_ollama(session, SECTION_PROMPTS[names[i]].format(topic=user_topic))`. -/
def generate_newsletter_sections (respond : Nat → String) (σ : List Nat) : List (String × String) :=
  SECTION_NAMES.zip (gatherD respond 5 σ)

/-! ## The inference client (`call_ollama`, voting.py lines 24-40 and
sectioning.py lines 37-53; both copies are textually identical up to
naming) -/

/-- Outcome of the `session.post` call as seen by `call_ollama`:
either an HTTP response arrives, carrying a status code and a JSON body
whose parse (`await response.json()`) may itself raise, or the transport
raises with some message. -/
inductive PostResult where
  | httpResponse (status : Nat) (jsonBody : Except String (List (String × String)))
  | raised (msg : String)

/-- Python `d.get(key, dflt)` on a string-valued insertion-ordered dict. -/
def pyGet (d : List (String × String)) (key dflt : String) : String :=
  match d.find? (fun p => p.1 == key) with
  | some p => p.2
  | none => dflt

/-- `call_ollama`: returns the `response` field of the body on status 200
(empty string if absent), `"Error: Status {code}"` on any other status, and
`"Error: {message}"` when anything inside the `try` raises.  Total by
construction: it never propagates an exception. -/
def call_ollama (r : PostResult) : String :=
  match r with
  | .httpResponse status jsonBody =>
    if status = 200 then
      match jsonBody with
      | .ok body => pyGet body "response" ""
      | .error e => "Error: " ++ e
    else
      "Error: Status " ++ toString status
  | .raised e => "Error: " ++ e

/-! ## The newsletter formatter (`format_newsletter`, sectioning.py
lines 82-124)

The Python function is a single f-string template; `datetime.now()` is
ambient state and is embedded as the explicit parameter `today`
(the value of `datetime.now().strftime(..)` with the month-day-year format at the run). -/

/-- The f-string template of `format_newsletter` with its six holes
(topic, date, and the five section slots). -/
def renderDoc (user_topic today h td ind tools op : String) : String :=
  "# AI Newsletter: " ++ user_topic ++ "\n*Generated on " ++ today ++ "*\n\n---\n\n## 📰 Headlines\n\n"
  ++ h ++ "\n\n---\n\n## 🔬 Technical Deep Dive\n\n"
  ++ td ++ "\n\n---\n\n## 🏢 Industry News\n\n"
  ++ ind ++ "\n\n---\n\n## 🛠️ Tools & Resources\n\n"
  ++ tools ++ "\n\n---\n\n## 💭 Analysis & Outlook\n\n"
  ++ op ++ "\n\n---\n\n*This newsletter was generated using parallel AI processing, with each section created simultaneously by separate LLM instances.*\n"

/-- `format_newsletter(user_topic, topic_sections)` at ambient date
`today`: the template filled with `topic_sections.get(key, placeholder)`
for the five fixed section keys. -/
def format_newsletter (user_topic : String) (topic_sections : List (String × String))
    (today : String) : String :=
  renderDoc user_topic today
    (pyGet topic_sections "headlines" "No headlines generated.")
    (pyGet topic_sections "technical_deep_dive" "No technical content generated.")
    (pyGet topic_sections "industry_news" "No industry news generated.")
    (pyGet topic_sections "tools_resources" "No tools/resources generated.")
    (pyGet topic_sections "opinion_analysis" "No analysis generated.")

/-! ## Concrete environments used to instantiate the general theorems -/

/-- A concrete response environment: task 1 fails at the HTTP layer, the
other tasks answer normally. -/
def respondW : Nat → String :=
  fun i => if i = 1 then "Error: Status 500" else "ok " ++ toString i

/-- A concrete response environment for the voting pipeline: every prompt
variant answers `"POSITIVE"`. -/
def respondAllPos : Nat → String := fun _ => "POSITIVE"

/-! ## Lemmas about the fan-out model -/

lemma runSchedule_eq (respond : Nat → String) (σ : List Nat) (j : Nat) :
    runSchedule respond σ j = if j ∈ σ then some (respond j) else none := by
  induction σ with
  | nil => simp [runSchedule]
  | cons i rest ih =>
    simp only [runSchedule, writeSlot]
    by_cases h : j = i
    · subst h; simp
    · simp [h, ih]

lemma gather_eq_of_perm (respond : Nat → String) (n : Nat) (σ : List Nat)
    (hσ : σ.Perm (List.range n)) :
    gather respond n σ = (List.range n).map (fun i => some (respond i)) := by
  unfold gather
  apply List.map_congr_left
  intro a ha
  rw [runSchedule_eq, if_pos (hσ.mem_iff.2 ha)]

lemma gatherD_eq_of_perm (respond : Nat → String) (n : Nat) (σ : List Nat)
    (hσ : σ.Perm (List.range n)) :
    gatherD respond n σ = (List.range n).map respond := by
  unfold gatherD
  rw [gather_eq_of_perm respond n σ hσ, List.map_map]
  rfl

example : classify "POSITIVE" = some "POSITIVE" := by rfl
example : classify "positive please" = some "POSITIVE" := by rfl
example : classify "NEGATIVE" = some "NEGATIVE" := by rfl
example : classify "maybe" = none := by rfl
example : classify "  neutral  stuff" = some "NEUTRAL" := by rfl
example : classify "" = none := by rfl
example : classify "NEUTRALITY" = some "NEUTRAL" := by rfl
example : voteResult ["POSITIVE", "positive please", "NEGATIVE"] =
    ("POSITIVE", ["POSITIVE", "POSITIVE", "NEGATIVE"]) := by rfl
example : voteResult ["maybe", "maybe", "maybe"] = ("UNABLE TO DETERMINE", []) := by rfl
example : winnerOf ["NEGATIVE", "POSITIVE", "NEUTRAL"] = "NEGATIVE" := by rfl
example : gatherD (fun i => toString i) 3 [2, 0, 1] = ["0", "1", "2"] := by rfl
example : call_ollama (.httpResponse 404 (.ok [])) = "Error: Status 404" := by rfl
example : call_ollama (.httpResponse 200 (.ok [("response", "hi")])) = "hi" := by rfl
example : call_ollama (.raised "boom") = "Error: boom" := by rfl
example :
    analyze_sentiment_voting (fun i => if i = 0 then "POSITIVE" else "no idea") [1, 2, 0] =
      ("POSITIVE", ["POSITIVE"]) := by rfl

/-- C1: for every ordered sequence of `n` prompt tasks, the fan-out step
returns exactly `n` results and the `i`-th result is the response produced
for the `i`-th input task, for every completion order `σ` (any permutation
of the task indices) and for every response environment `respond` —
including environments that return error strings for failed calls.  In
particular `generate_newsletter_sections` pairs the `i`-th section name
with the response of the `i`-th task. -/
theorem fan_out_preserves_order (respond : Nat → String) (n : Nat) (σ : List Nat)
    (hσ : σ.Perm (List.range n)) :
    (gatherD respond n σ).length = n ∧
    (∀ i, i < n → (gatherD respond n σ)[i]? = some (respond i)) ∧
    gather respond n σ = (List.range n).map (fun i => some (respond i)) ∧
    (∀ σ5 : List Nat, σ5.Perm (List.range 5) →
      generate_newsletter_sections respond σ5 =
        SECTION_NAMES.zip ((List.range 5).map respond)) := by
  have hD := gatherD_eq_of_perm respond n σ hσ
  refine ⟨?_, ?_, gather_eq_of_perm respond n σ hσ, ?_⟩
  · rw [hD]; simp
  · intro i hi
    rw [hD, List.getElem?_map, List.getElem?_range hi]
    rfl
  · intro σ5 hσ5
    unfold generate_newsletter_sections
    rw [gatherD_eq_of_perm respond 5 σ5 hσ5]

theorem fan_out_preserves_order_witness :
    ([2, 0, 1] : List Nat).Perm (List.range 3) ∧
      (gatherD respondW 3 [2, 0, 1])[1]? = some (respondW 1) :=
  ⟨by decide, (fan_out_preserves_order respondW 3 [2, 0, 1] (by decide)).2.1 1 (by decide)⟩

/-- C4: `call_ollama` returns the `response` field of the JSON body on
status 200 (the empty string when the field is absent), the literal
`"Error: Status {code}"` string on any non-200 status, and
`"Error: {message}"` when the transport (or the JSON parse) raises; being a
total function into `String`, it never propagates an exception to its
caller. -/
theorem call_ollama_spec :
    (∀ body : List (String × String),
      call_ollama (.httpResponse 200 (.ok body)) = pyGet body "response" "") ∧
    (∀ body : List (String × String), body.find? (fun p => p.1 == "response") = none →
      call_ollama (.httpResponse 200 (.ok body)) = "") ∧
    (∀ (s : Nat) (b : Except String (List (String × String))), s ≠ 200 →
      call_ollama (.httpResponse s b) = "Error: Status " ++ toString s) ∧
    (∀ e : String, call_ollama (.httpResponse 200 (.error e)) = "Error: " ++ e) ∧
    (∀ m : String, call_ollama (.raised m) = "Error: " ++ m) := by
  refine ⟨fun body => rfl, fun body h => ?_, fun s b hs => ?_, fun e => rfl, fun m => rfl⟩
  · simp [call_ollama, pyGet, h]
  · simp [call_ollama, hs]

theorem call_ollama_spec_witness :
    (404 : Nat) ≠ 200 ∧ call_ollama (.httpResponse 404 (.ok [])) = "Error: Status 404" := by
  refine ⟨by decide, ?_⟩
  rw [call_ollama_spec.2.2.1 404 (.ok []) (by decide)]
  rfl

/-- C5 counterexample: `format_newsletter` reads the ambient clock
(`datetime.now()`), so two runs on the same topic and the same sections
mapping, performed on different days, produce different output strings.
The ambient date is the `today` parameter of the embedding. -/
theorem format_newsletter_time_dependent :
    format_newsletter "AI" [] "October 12, 2025" ≠ format_newsletter "AI" [] "October 13, 2025" := by
  decide

/-- C5 amended: `format_newsletter` is deterministic given the topic, the
generation date, and the values the sections mapping holds at the five
fixed section keys — it reads nothing else (no conditional logic beyond
the placeholder substitution of `pyGet`). -/
theorem format_newsletter_deterministic (t d : String) (s1 s2 : List (String × String))
    (hh : s1.find? (fun p => p.1 == "headlines") = s2.find? (fun p => p.1 == "headlines"))
    (htd : s1.find? (fun p => p.1 == "technical_deep_dive") =
      s2.find? (fun p => p.1 == "technical_deep_dive"))
    (hin : s1.find? (fun p => p.1 == "industry_news") =
      s2.find? (fun p => p.1 == "industry_news"))
    (htr : s1.find? (fun p => p.1 == "tools_resources") =
      s2.find? (fun p => p.1 == "tools_resources"))
    (hoa : s1.find? (fun p => p.1 == "opinion_analysis") =
      s2.find? (fun p => p.1 == "opinion_analysis")) :
    format_newsletter t s1 d = format_newsletter t s2 d := by
  unfold format_newsletter pyGet
  rw [hh, htd, hin, htr, hoa]

theorem format_newsletter_deterministic_witness :
    ([("headlines", "H")] : List (String × String)).find? (fun p => p.1 == "headlines") =
        ([("junk", "J"), ("headlines", "H")] : List (String × String)).find?
          (fun p => p.1 == "headlines") ∧
      format_newsletter "AI" [("headlines", "H")] "October 12, 2025" =
        format_newsletter "AI" [("junk", "J"), ("headlines", "H")] "October 12, 2025" :=
  ⟨by decide,
    format_newsletter_deterministic "AI" "October 12, 2025" _ _
      (by decide) (by decide) (by decide) (by decide) (by decide)⟩

/-- C7: `format_newsletter` fills each of the five fixed slots of the
template `renderDoc` with `topic_sections.get(key, placeholder)`: a key
absent from the sections mapping yields the fixed per-section placeholder
(for example `"No headlines generated."`), and a present key yields its
value verbatim. -/
theorem section_placeholder_spec (topic_sections : List (String × String)) (t d : String) :
    format_newsletter t topic_sections d =
      renderDoc t d
        (pyGet topic_sections "headlines" "No headlines generated.")
        (pyGet topic_sections "technical_deep_dive" "No technical content generated.")
        (pyGet topic_sections "industry_news" "No industry news generated.")
        (pyGet topic_sections "tools_resources" "No tools/resources generated.")
        (pyGet topic_sections "opinion_analysis" "No analysis generated.") ∧
    (∀ key dflt, topic_sections.find? (fun p => p.1 == key) = none →
      pyGet topic_sections key dflt = dflt) ∧
    (∀ key dflt v, topic_sections.find? (fun p => p.1 == key) = some v →
      pyGet topic_sections key dflt = v.2) := by
  refine ⟨rfl, ?_, ?_⟩
  · intro key dflt h
    simp [pyGet, h]
  · intro key dflt v h
    simp [pyGet, h]

theorem section_placeholder_spec_witness :
    ([("headlines", "H1")] : List (String × String)).find?
        (fun p => p.1 == "technical_deep_dive") = none ∧
      pyGet [("headlines", "H1")] "technical_deep_dive" "No technical content generated." =
        "No technical content generated." ∧
      pyGet [("headlines", "H1")] "headlines" "No headlines generated." = "H1" :=
  ⟨by decide,
    (section_placeholder_spec [("headlines", "H1")] "AI" "d").2.1 "technical_deep_dive"
      "No technical content generated." (by decide),
    (section_placeholder_spec [("headlines", "H1")] "AI" "d").2.2 "headlines"
      "No headlines generated." ("headlines", "H1") (by decide)⟩

/-- C2: the classifier first normalises the raw response (strip then
uppercase), then tests containment of the tokens POSITIVE, NEGATIVE,
NEUTRAL in that priority order with the first match winning; when no token
is contained it classifies the response as its first whitespace-delimited
token exactly when that token is one of the three labels, and otherwise
drops the response.  On the mocked responses of the spec the pipeline
returns winner `"POSITIVE"` and raw votes
`["POSITIVE", "POSITIVE", "NEGATIVE"]`. -/
theorem classify_priority_spec (s : String) :
    (containsSub "POSITIVE".data (normResp s) = true → classify s = some "POSITIVE") ∧
    (containsSub "POSITIVE".data (normResp s) = false →
      containsSub "NEGATIVE".data (normResp s) = true → classify s = some "NEGATIVE") ∧
    (containsSub "POSITIVE".data (normResp s) = false →
      containsSub "NEGATIVE".data (normResp s) = false →
      containsSub "NEUTRAL".data (normResp s) = true → classify s = some "NEUTRAL") ∧
    (containsSub "POSITIVE".data (normResp s) = false →
      containsSub "NEGATIVE".data (normResp s) = false →
      containsSub "NEUTRAL".data (normResp s) = false →
      (String.mk (first_word (normResp s)) ∈ LABELS →
        classify s = some (String.mk (first_word (normResp s)))) ∧
      (String.mk (first_word (normResp s)) ∉ LABELS → classify s = none)) ∧
    voteResult ["POSITIVE", "positive please", "NEGATIVE"] =
      ("POSITIVE", ["POSITIVE", "POSITIVE", "NEGATIVE"]) := by
  refine ⟨?_, ?_, ?_, ?_, by rfl⟩
  · intro h1
    simp [classify, h1]
  · intro h1 h2
    simp [classify, h1, h2]
  · intro h1 h2 h3
    simp [classify, h1, h2, h3]
  · intro h1 h2 h3
    constructor
    · intro hm
      simp [classify, h1, h2, h3, List.elem_eq_mem, hm]
    · intro hm
      simp [classify, h1, h2, h3, List.elem_eq_mem, hm]

theorem classify_priority_spec_witness :
    containsSub "POSITIVE".data (normResp "mostly NEGATIVE text") = false ∧
      containsSub "NEGATIVE".data (normResp "mostly NEGATIVE text") = true ∧
      classify "mostly NEGATIVE text" = some "NEGATIVE" :=
  ⟨by decide, by decide,
    (classify_priority_spec "mostly NEGATIVE text").2.1 (by decide) (by decide)⟩

/-! ## Lemmas about the tally and the winner selection -/

lemma bump_ne_nil (c : List (String × Nat)) (v : String) : bump c v ≠ [] := by
  cases c with
  | nil => simp [bump]
  | cons a rest =>
    obtain ⟨k, n⟩ := a
    simp only [bump]
    split <;> simp

lemma foldl_bump_ne_nil (vs : List String) :
    ∀ c, c ≠ [] → List.foldl bump c vs ≠ [] := by
  induction vs with
  | nil => intro c hc; simpa using hc
  | cons v vs ih =>
    intro c hc
    rw [List.foldl_cons]
    exact ih _ (bump_ne_nil c v)

lemma tally_eq_nil_iff (sa_votes : List String) : tally sa_votes = [] ↔ sa_votes = [] := by
  cases sa_votes with
  | nil => simp [tally]
  | cons v vs =>
    simp only [tally, List.foldl_cons]
    exact ⟨fun h => absurd h (foldl_bump_ne_nil vs _ (bump_ne_nil [] v)), fun h => nomatch h⟩

lemma pyMaxAux_mem (best : String × Nat) (l : List (String × Nat)) :
    pyMaxAux best l ∈ best :: l := by
  induction l generalizing best with
  | nil => simp [pyMaxAux]
  | cons y ys ih =>
    by_cases hgt : y.2 > best.2
    · have hstep : pyMaxAux best (y :: ys) = pyMaxAux y ys := by simp [pyMaxAux, hgt]
      rw [hstep]
      rcases List.mem_cons.1 (ih y) with h | h
      · rw [h]; simp
      · exact List.mem_cons_of_mem _ (List.mem_cons_of_mem _ h)
    · have hstep : pyMaxAux best (y :: ys) = pyMaxAux best ys := by simp [pyMaxAux, hgt]
      rw [hstep]
      rcases List.mem_cons.1 (ih best) with h | h
      · rw [h]; simp
      · exact List.mem_cons_of_mem _ (List.mem_cons_of_mem _ h)

/-- `pyMaxAux best l` is either `best` itself, with every item of `l` at
most as large, or the first item of `l` whose count strictly exceeds
`best` and every later count; this is exactly the first-maximum behaviour
of the Python builtin `max`. -/
lemma pyMaxAux_first_max (l : List (String × Nat)) :
    ∀ best : String × Nat,
      (pyMaxAux best l = best ∧ ∀ p ∈ l, p.2 ≤ best.2) ∨
      (∃ i p, l[i]? = some p ∧ pyMaxAux best l = p ∧ best.2 < p.2 ∧
        (∀ (j : Nat) (q : String × Nat), j < i → l[j]? = some q → q.2 < p.2) ∧
        (∀ q ∈ l, q.2 ≤ p.2)) := by
  induction l with
  | nil =>
    intro best
    left
    exact ⟨rfl, by simp⟩
  | cons y ys ih =>
    intro best
    by_cases hgt : y.2 > best.2
    · have hstep : pyMaxAux best (y :: ys) = pyMaxAux y ys := by simp [pyMaxAux, hgt]
      rcases ih y with ⟨heq, hle⟩ | ⟨i, p, hget, heq, hlt, hpre, hall⟩
      · right
        refine ⟨0, y, by simp, by rw [hstep, heq], hgt, ?_, ?_⟩
        · intro j q hj _
          omega
        · intro q hq
          rcases List.mem_cons.1 hq with h | h
          · exact le_of_eq (congrArg Prod.snd h)
          · exact hle q h
      · right
        refine ⟨i + 1, p, by simpa using hget, by rw [hstep, heq], lt_trans hgt hlt, ?_, ?_⟩
        · intro j q hj hq
          cases j with
          | zero =>
            simp only [List.getElem?_cons_zero, Option.some.injEq] at hq
            rw [← hq]
            exact hlt
          | succ k =>
            exact hpre k q (by omega) (by simpa using hq)
        · intro q hq
          rcases List.mem_cons.1 hq with h | h
          · exact le_of_lt (lt_of_le_of_lt (le_of_eq (congrArg Prod.snd h)) hlt)
          · exact hall q h
    · have hyb : y.2 ≤ best.2 := Nat.le_of_not_lt hgt
      have hstep : pyMaxAux best (y :: ys) = pyMaxAux best ys := by simp [pyMaxAux, hgt]
      rcases ih best with ⟨heq, hle⟩ | ⟨i, p, hget, heq, hlt, hpre, hall⟩
      · left
        refine ⟨by rw [hstep, heq], ?_⟩
        intro q hq
        rcases List.mem_cons.1 hq with h | h
        · exact le_trans (le_of_eq (congrArg Prod.snd h)) hyb
        · exact hle q h
      · right
        refine ⟨i + 1, p, by simpa using hget, by rw [hstep, heq], hlt, ?_, ?_⟩
        · intro j q hj hq
          cases j with
          | zero =>
            simp only [List.getElem?_cons_zero, Option.some.injEq] at hq
            rw [← hq]
            exact lt_of_le_of_lt hyb hlt
          | succ k =>
            exact hpre k q (by omega) (by simpa using hq)
        · intro q hq
          rcases List.mem_cons.1 hq with h | h
          · exact le_of_lt (lt_of_le_of_lt (le_trans (le_of_eq (congrArg Prod.snd h)) hyb) hlt)
          · exact hall q h

lemma pyMax_first_max (t0 : String × Nat) (ts : List (String × Nat)) :
    ∃ (i : Nat) (c : Nat), (t0 :: ts)[i]? = some ((pyMaxAux t0 ts).1, c) ∧
      (∀ p ∈ t0 :: ts, p.2 ≤ c) ∧
      (∀ (j : Nat) (q : String × Nat), j < i → (t0 :: ts)[j]? = some q → q.2 < c) := by
  rcases pyMaxAux_first_max ts t0 with ⟨heq, hle⟩ | ⟨i, p, hget, heq, hlt, hpre, hall⟩
  · refine ⟨0, t0.2, by simp [heq], ?_, ?_⟩
    · intro p hp
      rcases List.mem_cons.1 hp with h | h
      · exact le_of_eq (congrArg Prod.snd h)
      · exact hle p h
    · intro j q hj _
      omega
  · refine ⟨i + 1, p.2, by simp [heq, hget], ?_, ?_⟩
    · intro q hq
      rcases List.mem_cons.1 hq with h | h
      · exact le_of_lt (lt_of_le_of_lt (le_of_eq (congrArg Prod.snd h)) hlt)
      · exact hall q h
    · intro j q hj hq
      cases j with
      | zero =>
        simp only [List.getElem?_cons_zero, Option.some.injEq] at hq
        rw [← hq]
        exact hlt
      | succ k =>
        exact hpre k q (by omega) (by simpa using hq)

/-- C3: for every non-empty list of classified votes, the winner returned
by the voting aggregator appears in the tally with a count `c` that is
maximal, and every tally entry strictly before it (that is, every label
encountered earlier during tally accumulation) has a strictly smaller
count — so on ties the winner is the label that entered the tally first. -/
theorem winner_first_max (sa_votes : List String) (hv : sa_votes ≠ []) :
    ∃ (i : Nat) (c : Nat), (tally sa_votes)[i]? = some (winnerOf sa_votes, c) ∧
      (∀ p ∈ tally sa_votes, p.2 ≤ c) ∧
      (∀ (j : Nat) (q : String × Nat), j < i → (tally sa_votes)[j]? = some q → q.2 < c) := by
  have ht : tally sa_votes ≠ [] := fun h => hv ((tally_eq_nil_iff sa_votes).1 h)
  obtain ⟨t0, ts, hts⟩ := List.exists_cons_of_ne_nil ht
  have hw : winnerOf sa_votes = (pyMaxAux t0 ts).1 := by
    unfold winnerOf
    rw [hts]
  rw [hw, hts]
  exact pyMax_first_max t0 ts

theorem winner_first_max_witness :
    (["POSITIVE", "NEGATIVE", "NEUTRAL"] : List String) ≠ [] ∧
      ∃ (i : Nat) (c : Nat),
        (tally ["POSITIVE", "NEGATIVE", "NEUTRAL"])[i]? =
          some (winnerOf ["POSITIVE", "NEGATIVE", "NEUTRAL"], c) ∧
        (∀ p ∈ tally ["POSITIVE", "NEGATIVE", "NEUTRAL"], p.2 ≤ c) ∧
        (∀ (j : Nat) (q : String × Nat), j < i →
          (tally ["POSITIVE", "NEGATIVE", "NEUTRAL"])[j]? = some q → q.2 < c) :=
  ⟨by decide, winner_first_max _ (by decide)⟩

/-! ## Membership lemmas: every vote and the winner come from the labels -/

lemma classify_mem_labels (s v : String) (h : classify s = some v) : v ∈ LABELS := by
  unfold classify at h
  split at h
  · simp only [Option.some.injEq] at h
    subst h
    decide
  · split at h
    · simp only [Option.some.injEq] at h
      subst h
      decide
    · split at h
      · simp only [Option.some.injEq] at h
        subst h
        decide
      · split at h
        · next hc =>
            simp only [Option.some.injEq] at h
            subst h
            exact List.elem_iff.1 hc
        · exact Option.noConfusion h

lemma mem_bump (c : List (String × Nat)) (v : String) (q : String × Nat) (hq : q ∈ bump c v) :
    q.1 = v ∨ ∃ r ∈ c, r.1 = q.1 := by
  induction c with
  | nil =>
    simp only [bump, List.mem_singleton] at hq
    left
    rw [hq]
  | cons a rest ih =>
    obtain ⟨k, n⟩ := a
    simp only [bump] at hq
    by_cases hk : k = v
    · rw [if_pos hk] at hq
      rcases List.mem_cons.1 hq with h | h
      · left
        rw [h]
        exact hk
      · right
        exact ⟨q, List.mem_cons_of_mem _ h, rfl⟩
    · rw [if_neg hk] at hq
      rcases List.mem_cons.1 hq with h | h
      · right
        exact ⟨(k, n), List.mem_cons_self _ _, by rw [h]⟩
      · rcases ih h with h1 | ⟨r, hr, hr1⟩
        · left
          exact h1
        · right
          exact ⟨r, List.mem_cons_of_mem _ hr, hr1⟩

lemma mem_foldl_bump (vs : List String) :
    ∀ (c : List (String × Nat)) (p : String × Nat), p ∈ List.foldl bump c vs →
      (∃ q ∈ c, q.1 = p.1) ∨ p.1 ∈ vs := by
  induction vs with
  | nil =>
    intro c p hp
    left
    exact ⟨p, hp, rfl⟩
  | cons v vs ih =>
    intro c p hp
    rw [List.foldl_cons] at hp
    rcases ih (bump c v) p hp with ⟨q, hq, hq1⟩ | h
    · rcases mem_bump c v q hq with h1 | ⟨r, hr, hr1⟩
      · right
        rw [List.mem_cons]
        left
        rw [← hq1, h1]
      · left
        exact ⟨r, hr, by rw [hr1, hq1]⟩
    · right
      exact List.mem_cons_of_mem _ h

lemma tally_keys_sub (sa_votes : List String) (p : String × Nat) (hp : p ∈ tally sa_votes) :
    p.1 ∈ sa_votes := by
  rcases mem_foldl_bump sa_votes [] p hp with ⟨q, hq, _⟩ | h
  · exact absurd hq (List.not_mem_nil q)
  · exact h

lemma winnerOf_mem (sa_votes : List String) (hv : sa_votes ≠ []) :
    winnerOf sa_votes ∈ sa_votes := by
  have ht : tally sa_votes ≠ [] := fun h => hv ((tally_eq_nil_iff sa_votes).1 h)
  obtain ⟨t0, ts, hts⟩ := List.exists_cons_of_ne_nil ht
  have hw : winnerOf sa_votes = (pyMaxAux t0 ts).1 := by
    unfold winnerOf
    rw [hts]
  have hm : pyMaxAux t0 ts ∈ tally sa_votes := by
    rw [hts]
    exact pyMaxAux_mem t0 ts
  rw [hw]
  exact tally_keys_sub sa_votes _ hm

lemma votesFrom_labels (responses : List String) (v : String) (hv : v ∈ votesFrom responses) :
    v ∈ LABELS := by
  rcases List.mem_filterMap.1 hv with ⟨s, _, hcl⟩
  exact classify_mem_labels s v hcl

/-- C6: the voting aggregator returns the sentinel winner
`"UNABLE TO DETERMINE"` together with an empty vote list whenever no
response was classifiable, and it returns that sentinel only in that case:
whenever the vote list is non-empty the winner is one of the three labels,
none of which is the sentinel. -/
theorem unable_to_determine_iff_empty (responses : List String) :
    (votesFrom responses = [] → voteResult responses = ("UNABLE TO DETERMINE", [])) ∧
    ((voteResult responses).1 = "UNABLE TO DETERMINE" → (voteResult responses).2 = []) := by
  constructor
  · intro h
    unfold voteResult
    rw [h]
    rfl
  · intro h
    by_cases hv : votesFrom responses = []
    · exact hv
    · exfalso
      have hw := winnerOf_mem (votesFrom responses) hv
      have hlab := votesFrom_labels responses _ hw
      have h1 : (voteResult responses).1 = winnerOf (votesFrom responses) := rfl
      rw [h1] at h
      rw [h] at hlab
      exact absurd hlab (by decide)

theorem unable_to_determine_iff_empty_witness :
    votesFrom ["maybe", "maybe", "maybe"] = [] ∧
      voteResult ["maybe", "maybe", "maybe"] = ("UNABLE TO DETERMINE", []) :=
  ⟨by rfl, (unable_to_determine_iff_empty ["maybe", "maybe", "maybe"]).1 (by rfl)⟩

/-! ## Counting lemmas for the tally -/

lemma sumCounts_bump (c : List (String × Nat)) (v : String) :
    sumCounts (bump c v) = sumCounts c + 1 := by
  induction c with
  | nil => simp [bump, sumCounts]
  | cons a rest ih =>
    obtain ⟨k, n⟩ := a
    by_cases hk : k = v
    · simp [bump, hk, sumCounts]
      omega
    · simp only [bump, if_neg hk]
      simp only [sumCounts, List.map_cons, List.sum_cons] at *
      omega

lemma sumCounts_foldl (vs : List String) :
    ∀ c, sumCounts (List.foldl bump c vs) = sumCounts c + vs.length := by
  induction vs with
  | nil => intro c; simp
  | cons v vs ih =>
    intro c
    rw [List.foldl_cons, ih (bump c v), sumCounts_bump]
    simp
    omega

lemma lookupCount_cons_self (j : String) (n : Nat) (l : List (String × Nat)) :
    lookupCount ((j, n) :: l) j = n := by
  unfold lookupCount
  rw [List.find?_cons_of_pos _ (by simp)]

lemma lookupCount_cons_ne (j k : String) (hne : ¬j = k) (n : Nat) (l : List (String × Nat)) :
    lookupCount ((j, n) :: l) k = lookupCount l k := by
  unfold lookupCount
  rw [List.find?_cons_of_neg _ (by simp [hne])]

lemma lookupCount_bump (c : List (String × Nat)) (v k : String) :
    lookupCount (bump c v) k = lookupCount c k + (if k = v then 1 else 0) := by
  induction c with
  | nil =>
    by_cases hk : k = v
    · subst hk
      rw [bump]
      rw [lookupCount_cons_self]
      simp [lookupCount, List.find?]
    · have hk2 : ¬v = k := fun h => hk h.symm
      rw [bump, lookupCount_cons_ne v k hk2]
      simp [lookupCount, List.find?, hk]
  | cons a rest ih =>
    obtain ⟨j, n⟩ := a
    by_cases hj : j = v
    · subst hj
      rw [bump, if_pos rfl]
      by_cases hk : k = j
      · subst hk
        rw [lookupCount_cons_self, lookupCount_cons_self, if_pos rfl]
      · have hk2 : ¬j = k := fun h => hk h.symm
        rw [lookupCount_cons_ne j k hk2, lookupCount_cons_ne j k hk2, if_neg hk]
        omega
    · rw [bump, if_neg hj]
      by_cases hk : k = j
      · subst hk
        rw [lookupCount_cons_self, lookupCount_cons_self, if_neg hj]
        omega
      · have hk2 : ¬j = k := fun h => hk h.symm
        rw [lookupCount_cons_ne j k hk2, lookupCount_cons_ne j k hk2, ih]

lemma lookupCount_foldl (vs : List String) :
    ∀ (c : List (String × Nat)) (k : String),
      lookupCount (List.foldl bump c vs) k = lookupCount c k + vs.count k := by
  induction vs with
  | nil => intro c k; simp
  | cons v vs ih =>
    intro c k
    rw [List.foldl_cons, ih (bump c v) k, lookupCount_bump]
    rw [List.count_cons]
    simp only [beq_iff_eq]
    by_cases hk : v = k
    · subst hk
      simp
      omega
    · have hk2 : ¬k = v := fun h => hk h.symm
      simp [hk, hk2]

lemma lookupCount_tally (sa_votes : List String) (k : String) :
    lookupCount (tally sa_votes) k = sa_votes.count k := by
  rw [tally, lookupCount_foldl]
  simp [lookupCount, List.find?]

lemma keys_bump (c : List (String × Nat)) (v : String) :
    (bump c v).map Prod.fst =
      if v ∈ c.map Prod.fst then c.map Prod.fst else c.map Prod.fst ++ [v] := by
  induction c with
  | nil => simp [bump]
  | cons a rest ih =>
    obtain ⟨k, n⟩ := a
    by_cases hk : k = v
    · simp [bump, hk]
    · have hk2 : ¬v = k := fun h => hk h.symm
      simp only [bump, if_neg hk, List.map_cons, ih, List.mem_cons]
      by_cases hv : v ∈ rest.map Prod.fst
      · simp [hv, hk2]
      · simp [hv, hk2]

lemma nodup_keys_bump (c : List (String × Nat)) (v : String)
    (h : (c.map Prod.fst).Nodup) : ((bump c v).map Prod.fst).Nodup := by
  rw [keys_bump]
  by_cases hv : v ∈ c.map Prod.fst
  · rwa [if_pos hv]
  · rw [if_neg hv]
    simp [List.nodup_append, h, hv]

lemma nodup_keys_tally (sa_votes : List String) : ((tally sa_votes).map Prod.fst).Nodup := by
  rw [tally]
  have : ∀ (c : List (String × Nat)), (c.map Prod.fst).Nodup →
      ((List.foldl bump c sa_votes).map Prod.fst).Nodup := by
    induction sa_votes with
    | nil => intro c hc; simpa using hc
    | cons v vs ih =>
      intro c hc
      rw [List.foldl_cons]
      exact ih _ (nodup_keys_bump c v hc)
  exact this [] (by simp)

lemma find_of_mem_nodup (c : List (String × Nat)) (p : String × Nat)
    (hnd : (c.map Prod.fst).Nodup) (hp : p ∈ c) :
    c.find? (fun q => q.1 == p.1) = some p := by
  induction c with
  | nil => exact absurd hp (List.not_mem_nil p)
  | cons a rest ih =>
    rw [List.map_cons, List.nodup_cons] at hnd
    rcases List.mem_cons.1 hp with h | h
    · subst h
      simp [List.find?]
    · by_cases hap : a.1 = p.1
      · exfalso
        apply hnd.1
        rw [hap]
        exact List.mem_map_of_mem Prod.fst h
      · have : ¬(a.1 == p.1) = true := by simp [hap]
        rw [List.find?]
        simp only [this]
        exact ih hnd.2 h

/-- C8: the tally built from the surviving votes satisfies the declared
invariants: the total of all counts equals the number of surviving votes
and hence is at most the number of gathered responses (unclassifiable
responses contribute nothing), and each recorded count equals the number
of surviving votes for its label. -/
theorem tally_invariants (responses : List String) :
    sumCounts (tally (votesFrom responses)) = (votesFrom responses).length ∧
    sumCounts (tally (votesFrom responses)) ≤ responses.length ∧
    ∀ p ∈ tally (votesFrom responses), p.2 = (votesFrom responses).count p.1 := by
  have hsum : sumCounts (tally (votesFrom responses)) = (votesFrom responses).length := by
    rw [tally, sumCounts_foldl]
    simp [sumCounts]
  refine ⟨hsum, ?_, ?_⟩
  · rw [hsum]
    exact List.length_filterMap_le classify responses
  · intro p hp
    have h1 := lookupCount_tally (votesFrom responses) p.1
    rw [lookupCount, find_of_mem_nodup _ p (nodup_keys_tally _) hp] at h1
    exact h1

theorem tally_invariants_witness :
    sumCounts (tally (votesFrom ["POSITIVE", "bad", "NEGATIVE stuff"])) ≤ 3 ∧
      ("POSITIVE", 1) ∈ tally (votesFrom ["POSITIVE", "bad", "NEGATIVE stuff"]) ∧
      (1 : Nat) = (votesFrom ["POSITIVE", "bad", "NEGATIVE stuff"]).count "POSITIVE" :=
  ⟨(tally_invariants ["POSITIVE", "bad", "NEGATIVE stuff"]).2.1,
    by decide,
    (tally_invariants ["POSITIVE", "bad", "NEGATIVE stuff"]).2.2 ("POSITIVE", 1) (by decide)⟩

/-- C10: for every response environment and completion schedule, the vote
list returned by `analyze_sentiment_voting` contains only the three labels
POSITIVE, NEGATIVE, NEUTRAL, has length at most 3 (the number of prompt
variants), and whenever the winner is not the sentinel
`"UNABLE TO DETERMINE"` the winner is an element of the vote list. -/
theorem votes_well_formed (respond : Nat → String) (σ : List Nat) :
    (∀ v ∈ (analyze_sentiment_voting respond σ).2, v ∈ LABELS) ∧
    (analyze_sentiment_voting respond σ).2.length ≤ 3 ∧
    ((analyze_sentiment_voting respond σ).1 ≠ "UNABLE TO DETERMINE" →
      (analyze_sentiment_voting respond σ).1 ∈ (analyze_sentiment_voting respond σ).2) := by
  have h2 : (analyze_sentiment_voting respond σ).2 = votesFrom (gatherD respond 3 σ) := rfl
  have h1 : (analyze_sentiment_voting respond σ).1 =
      winnerOf (votesFrom (gatherD respond 3 σ)) := rfl
  refine ⟨?_, ?_, ?_⟩
  · intro v hv
    rw [h2] at hv
    exact votesFrom_labels _ v hv
  · rw [h2]
    have hle := List.length_filterMap_le classify (gatherD respond 3 σ)
    have hlen : (gatherD respond 3 σ).length = 3 := by simp [gatherD, gather]
    show (List.filterMap classify (gatherD respond 3 σ)).length ≤ 3
    omega
  · intro hne
    by_cases hv : votesFrom (gatherD respond 3 σ) = []
    · exfalso
      apply hne
      rw [h1, hv]
      rfl
    · rw [h1, h2]
      exact winnerOf_mem _ hv

theorem votes_well_formed_witness :
    (analyze_sentiment_voting respondAllPos [0, 1, 2]).1 ≠ "UNABLE TO DETERMINE" ∧
      (analyze_sentiment_voting respondAllPos [0, 1, 2]).1 ∈
        (analyze_sentiment_voting respondAllPos [0, 1, 2]).2 ∧
      "POSITIVE" ∈ LABELS :=
  ⟨by decide, (votes_well_formed respondAllPos [0, 1, 2]).2.2 (by decide),
    (votes_well_formed respondAllPos [0, 1, 2]).1 "POSITIVE" (by decide)⟩

/-! ## Totality of the classification step -/

lemma isSpace_upChar (c : Char) : isSpace (upChar c) = isSpace c := by
  unfold upChar
  rcases hf : UPPER_MAP.find? (fun p => p.1 == c) with _ | p
  · rw [hf]
  · rw [hf]
    show isSpace p.2 = isSpace c
    have hp : p ∈ UPPER_MAP := List.mem_of_find?_eq_some hf
    have hc : p.1 = c := by simpa using List.find?_some hf
    have h2 : isSpace p.2 = false ∧ isSpace p.1 = false :=
      (by decide : ∀ q ∈ UPPER_MAP, isSpace q.2 = false ∧ isSpace q.1 = false) p hp
    rw [h2.1, ← hc, h2.2]

lemma dropWhile_head_false (p : Char → Bool) :
    ∀ (l : List Char) (c : Char) (cs : List Char), l.dropWhile p = c :: cs → p c = false := by
  intro l
  induction l with
  | nil =>
    intro c cs h
    simp [List.dropWhile] at h
  | cons x xs ih =>
    intro c cs h
    rw [List.dropWhile_cons] at h
    split at h
    · exact ih c cs h
    · next hx =>
      injection h with h1 h2
      subst h1
      simpa using hx

lemma pyStrip_exists_nonspace (l : List Char) (h : pyStrip l ≠ []) :
    ∃ c ∈ pyStrip l, isSpace c = false := by
  unfold pyStrip at h ⊢
  rcases hu : (l.dropWhile isSpace).reverse.dropWhile isSpace with _ | ⟨c, cs⟩
  · rw [hu] at h
    simp at h
  · have hc : isSpace c = false := dropWhile_head_false isSpace _ c cs hu
    refine ⟨c, ?_, hc⟩
    simp

lemma pySplitAux_eq_nil (l : List Char) :
    ∀ cur, pySplitAux l cur = [] → cur = [] ∧ ∀ c ∈ l, isSpace c = true := by
  induction l with
  | nil =>
    intro cur h
    simp only [pySplitAux] at h
    split at h
    · next hcur => exact ⟨hcur, by simp⟩
    · exact absurd h (by simp)
  | cons x xs ih =>
    intro cur h
    simp only [pySplitAux] at h
    split at h
    · next hx =>
      split at h
      · obtain ⟨h1, h2⟩ := ih [] h
        next hcur =>
          refine ⟨hcur, ?_⟩
          intro c hc
          rcases List.mem_cons.1 hc with rfl | hc2
          · exact hx
          · exact h2 c hc2
      · exact absurd h (by simp)
    · obtain ⟨h1, h2⟩ := ih _ h
      exact absurd h1 (by simp)

lemma pySplit_ne_nil (l : List Char) (c : Char) (hc : c ∈ l) (hcs : isSpace c = false) :
    pySplit l ≠ [] := by
  intro h
  have h2 := (pySplitAux_eq_nil l [] h).2 c hc
  rw [hcs] at h2
  exact Bool.noConfusion h2

lemma normResp_split_ne_nil (s : String) (h : normResp s ≠ []) :
    pySplit (normResp s) ≠ [] := by
  have hstrip : pyStrip s.data ≠ [] := by
    intro he
    apply h
    unfold normResp pyUpper
    rw [he]
    rfl
  obtain ⟨c, hc, hcs⟩ := pyStrip_exists_nonspace _ hstrip
  apply pySplit_ne_nil (normResp s) (upChar c)
  · unfold normResp pyUpper
    exact List.mem_map_of_mem upChar hc
  · rw [isSpace_upChar]
    exact hcs

/-- C9: the classification step is total on all input strings.  The
fallible embedding `classifyE`, in which the list indexing `split()[0]`
raises when the split is empty, never reaches its error case (the fallback
is guarded by the non-emptiness test on the stripped string, and a
non-empty stripped string always splits into at least one word); and
empty or whitespace-only responses are dropped, not faulted. -/
theorem classify_total (s : String) :
    classifyE s = Except.ok (classify s) ∧ (normResp s = [] → classify s = none) := by
  constructor
  · unfold classifyE classify
    by_cases h1 : containsSub "POSITIVE".data (normResp s) = true
    · simp [h1]
    · rw [Bool.not_eq_true] at h1
      by_cases h2 : containsSub "NEGATIVE".data (normResp s) = true
      · simp [h1, h2]
      · rw [Bool.not_eq_true] at h2
        by_cases h3 : containsSub "NEUTRAL".data (normResp s) = true
        · simp [h1, h2, h3]
        · rw [Bool.not_eq_true] at h3
          by_cases hs : normResp s = []
          · simp only [h1, h2, h3, hs, first_word]
            rfl
          · have hsp := normResp_split_ne_nil s hs
            rcases hsp2 : pySplit (normResp s) with _ | ⟨w, ws⟩
            · exact absurd hsp2 hsp
            · simp [h1, h2, h3, hs, first_word, hsp2]
  · intro h
    unfold classify
    rw [h]
    decide

theorem classify_total_witness :
    normResp " \t " = [] ∧ classify " \t " = none :=
  ⟨by rfl, (classify_total " \t ").2 (by rfl)⟩

end Parallelization
